import Mathlib

/-!
Shallow embedding of the smart-textbook-scanner backend
(src/db/tables.ts and src/src/actions/index.ts).

Modelling conventions:
* SQLite rows are Lean structures; a table is a `List` of rows inside `Store`.
* Auto-increment primary keys are modelled by a per-table `next…Id` counter in
  the store; an insert assigns the counter and bumps it.
* JSON payloads (`sourceMeta`, `ocrBlocks`, `meta`, job `input`/`output`) are
  opaque to this codebase (spec section 9), so they are modelled as an opaque
  wrapper around a serialized string.
* `new Date()` is modelled by an explicit `now : Int` argument to each handler.
* JavaScript truthiness on optional numbers (`if (input.id)`) is `truthyI`:
  `none` and `some 0` are falsy.  Truthiness on optional enum strings is
  `truthyS`: `none` and `some ""` are falsy.
* Every handler takes the session user (`Option String`, the `locals.user` of
  `requireUser`) and the current store, and returns the `Except` result paired
  with the store after whatever database statements were executed before the
  handler returned or threw.
-/

namespace STScan

/-- Opaque JSON payload: the repository never inspects these values. -/
structure Json where
  raw : String
  deriving DecidableEq, Repr

/-- Row of TextbookDocuments (src/db/tables.ts lines 7-31). -/
structure Doc where
  id : Int
  ownerId : String
  title : String
  description : Option String
  subject : Option String
  gradeLevel : Option String
  board : Option String
  sourceType : String
  sourceMeta : Option Json
  createdAt : Int
  updatedAt : Int
  deriving DecidableEq, Repr

/-- Row of TextbookPages (src/db/tables.ts lines 36-58). -/
structure Page where
  id : Int
  documentId : Int
  pageNumber : Int
  imageUrl : Option String
  ocrText : Option String
  ocrBlocks : Option Json
  createdAt : Int
  updatedAt : Int
  deriving DecidableEq, Repr

/-- Row of TextbookHighlights (src/db/tables.ts lines 64-90). -/
structure Highlight where
  id : Int
  documentId : Int
  pageId : Option Int
  highlightType : String
  content : String
  meta : Option Json
  createdAt : Int
  deriving DecidableEq, Repr

/-- Row of ScanJobs (src/db/tables.ts lines 95-125). -/
structure ScanJob where
  id : Int
  documentId : Option Int
  pageId : Option Int
  userId : Option String
  jobType : String
  input : Option Json
  output : Option Json
  status : String
  createdAt : Int
  deriving DecidableEq, Repr

/-- The persisted database state: the four tables plus auto-increment counters. -/
structure Store where
  documents : List Doc
  pages : List Page
  highlights : List Highlight
  jobs : List ScanJob
  nextDocId : Int
  nextPageId : Int
  nextHighlightId : Int
  nextJobId : Int
  deriving DecidableEq, Repr

/-- The empty database, with auto-increment counters starting at 1. -/
def emptyStore : Store :=
  { documents := [], pages := [], highlights := [], jobs := []
    nextDocId := 1, nextPageId := 1, nextHighlightId := 1, nextJobId := 1 }

/-- Declared defaults of src/db/tables.ts: TextbookDocuments.sourceType. -/
def documentsSourceTypeDefault : String := "image_set"

/-- Declared defaults of src/db/tables.ts: ScanJobs.jobType. -/
def scanJobsJobTypeDefault : String := "full_pipeline"

/-- Declared defaults of src/db/tables.ts: ScanJobs.status
(tables.ts lines 118-121). -/
def scanJobsStatusDefault : String := "completed"

/-- Declared defaults of src/db/tables.ts: TextbookHighlights.highlightType. -/
def highlightsTypeDefault : String := "key_point"

/-- The z.enum values accepted for a scan-job status. -/
def scanJobStatusEnum : List String := ["pending", "completed", "failed"]

/-- JavaScript truthiness of an optional number: null/undefined and 0 are falsy. -/
def truthyI : Option Int → Bool
  | none => false
  | some v => v != 0

/-- JavaScript truthiness of an optional string: null/undefined and "" are falsy. -/
def truthyS : Option String → Bool
  | none => false
  | some s => s != ""

/-- Error codes used by the action layer. -/
inductive ErrCode
  | UNAUTHORIZED
  | NOT_FOUND
  deriving DecidableEq, Repr

/-- An ActionError value: code plus message. -/
structure ActionError where
  code : ErrCode
  message : String
  deriving DecidableEq, Repr

/-- requireUser (actions/index.ts lines 14-26): the session user or UNAUTHORIZED. -/
def requireUser (sess : Option String) : Except ActionError String :=
  match sess with
  | none =>
    Except.error { code := ErrCode.UNAUTHORIZED
                   message := "You must be signed in to perform this action." }
  | some u => Except.ok u

/-- Input of createDocument (actions/index.ts lines 30-38). -/
structure CreateDocumentInput where
  title : String
  description : Option String := none
  subject : Option String := none
  gradeLevel : Option String := none
  board : Option String := none
  sourceType : Option String := none
  sourceMeta : Option Json := none
  deriving DecidableEq, Repr

/-- createDocument handler (actions/index.ts lines 29-60). -/
def createDocument (sess : Option String) (inp : CreateDocumentInput) (now : Int)
    (st : Store) : Except ActionError Doc × Store :=
  match requireUser sess with
  | Except.error e => (Except.error e, st)
  | Except.ok uid =>
    let doc : Doc :=
      { id := st.nextDocId, ownerId := uid, title := inp.title
        description := inp.description, subject := inp.subject
        gradeLevel := inp.gradeLevel, board := inp.board
        sourceType := inp.sourceType.getD "image_set"
        sourceMeta := inp.sourceMeta, createdAt := now, updatedAt := now }
    (Except.ok doc,
      { st with documents := st.documents ++ [doc], nextDocId := st.nextDocId + 1 })

/-- Input of updateDocument (actions/index.ts lines 63-72). -/
structure UpdateDocumentInput where
  id : Int
  title : Option String := none
  description : Option String := none
  subject : Option String := none
  gradeLevel : Option String := none
  board : Option String := none
  sourceType : Option String := none
  sourceMeta : Option Json := none
  deriving DecidableEq, Repr

/-- Patch semantics for an optional column: a field explicitly present in the
input overwrites the stored value, an absent field leaves it untouched. -/
def patchOpt {A : Type} (newVal : Option A) (old : Option A) : Option A :=
  match newVal with
  | some v => some v
  | none => old

/-- The effect of the updateDocument SET clause on one row: spread of
`updateData` (one key per field explicitly present in the input) followed by
`updatedAt = new Date()` (actions/index.ts lines 101-108). -/
def applyDocUpdate (inp : UpdateDocumentInput) (now : Int) (d : Doc) : Doc :=
  { d with
    title := inp.title.getD d.title
    description := patchOpt inp.description d.description
    subject := patchOpt inp.subject d.subject
    gradeLevel := patchOpt inp.gradeLevel d.gradeLevel
    board := patchOpt inp.board d.board
    sourceType := inp.sourceType.getD d.sourceType
    sourceMeta := patchOpt inp.sourceMeta d.sourceMeta
    updatedAt := now }

/-- Object.keys(updateData).length test of actions/index.ts line 97: true iff
at least one optional field of the input is explicitly present. -/
def anyDocFieldSupplied (inp : UpdateDocumentInput) : Bool :=
  inp.title.isSome || inp.description.isSome || inp.subject.isSome ||
  inp.gradeLevel.isSome || inp.board.isSome || inp.sourceType.isSome ||
  inp.sourceMeta.isSome

/-- updateDocument handler (actions/index.ts lines 62-112). -/
def updateDocument (sess : Option String) (inp : UpdateDocumentInput) (now : Int)
    (st : Store) : Except ActionError Doc × Store :=
  match requireUser sess with
  | Except.error e => (Except.error e, st)
  | Except.ok uid =>
    match st.documents.find? (fun d => d.id == inp.id && d.ownerId == uid) with
    | none => (Except.error { code := ErrCode.NOT_FOUND, message := "Document not found." }, st)
    | some existing =>
      if anyDocFieldSupplied inp then
        (Except.ok (applyDocUpdate inp now existing),
          { st with documents :=
              st.documents.map (fun d =>
                if d.id == inp.id && d.ownerId == uid then applyDocUpdate inp now d else d) })
      else
        (Except.ok existing, st)

/-- listDocuments handler (actions/index.ts lines 114-126). -/
def listDocuments (sess : Option String) (st : Store) :
    Except ActionError (List Doc) × Store :=
  match requireUser sess with
  | Except.error e => (Except.error e, st)
  | Except.ok uid =>
    (Except.ok (st.documents.filter (fun d => d.ownerId == uid)), st)

/-- getDocumentWithPages handler (actions/index.ts lines 128-155). -/
def getDocumentWithPages (sess : Option String) (id : Int) (st : Store) :
    Except ActionError (Doc × List Page) × Store :=
  match requireUser sess with
  | Except.error e => (Except.error e, st)
  | Except.ok uid =>
    match st.documents.find? (fun d => d.id == id && d.ownerId == uid) with
    | none => (Except.error { code := ErrCode.NOT_FOUND, message := "Document not found." }, st)
    | some document =>
      (Except.ok (document, st.pages.filter (fun p => p.documentId == id)), st)

/-- Input of savePage (actions/index.ts lines 158-165). -/
structure SavePageInput where
  id : Option Int := none
  documentId : Int
  pageNumber : Option Int := none
  imageUrl : Option String := none
  ocrText : Option String := none
  ocrBlocks : Option Json := none
  deriving DecidableEq, Repr

/-- The baseValues record of savePage (actions/index.ts lines 182-190),
applied to a row by the UPDATE branch set call: every writable field is
overwritten, pageNumber falling back to 1, timestamps refreshed. -/
def applyPageBase (inp : SavePageInput) (now : Int) (p : Page) : Page :=
  { p with
    documentId := inp.documentId
    pageNumber := inp.pageNumber.getD 1
    imageUrl := inp.imageUrl
    ocrText := inp.ocrText
    ocrBlocks := inp.ocrBlocks
    createdAt := now
    updatedAt := now }

/-- savePage handler (actions/index.ts lines 157-218). -/
def savePage (sess : Option String) (inp : SavePageInput) (now : Int)
    (st : Store) : Except ActionError Page × Store :=
  match requireUser sess with
  | Except.error e => (Except.error e, st)
  | Except.ok uid =>
    match st.documents.find? (fun d => d.id == inp.documentId && d.ownerId == uid) with
    | none => (Except.error { code := ErrCode.NOT_FOUND, message := "Document not found." }, st)
    | some _ =>
      if truthyI inp.id then
        let pid := inp.id.getD 0
        match st.pages.find? (fun p => p.id == pid) with
        | none => (Except.error { code := ErrCode.NOT_FOUND, message := "Page not found." }, st)
        | some existing =>
          if existing.documentId == inp.documentId then
            (Except.ok (applyPageBase inp now existing),
              { st with pages :=
                  st.pages.map (fun p => if p.id == pid then applyPageBase inp now p else p) })
          else
            (Except.error { code := ErrCode.NOT_FOUND, message := "Page not found." }, st)
      else
        let page : Page :=
          { id := st.nextPageId, documentId := inp.documentId
            pageNumber := inp.pageNumber.getD 1, imageUrl := inp.imageUrl
            ocrText := inp.ocrText, ocrBlocks := inp.ocrBlocks
            createdAt := now, updatedAt := now }
        (Except.ok page,
          { st with pages := st.pages ++ [page], nextPageId := st.nextPageId + 1 })

/-- Input of deletePage (actions/index.ts lines 221-224). -/
structure DeletePageInput where
  id : Int
  documentId : Int
  deriving DecidableEq, Repr

/-- deletePage handler (actions/index.ts lines 220-255): the DELETE statement
removes every row matching both id and documentId; if it removed none the
handler throws NOT_FOUND after the (empty) delete. -/
def deletePage (sess : Option String) (inp : DeletePageInput) (st : Store) :
    Except ActionError Page × Store :=
  match requireUser sess with
  | Except.error e => (Except.error e, st)
  | Except.ok uid =>
    match st.documents.find? (fun d => d.id == inp.documentId && d.ownerId == uid) with
    | none => (Except.error { code := ErrCode.NOT_FOUND, message := "Document not found." }, st)
    | some _ =>
      let deleted := st.pages.filter (fun p => p.id == inp.id && p.documentId == inp.documentId)
      let remaining := st.pages.filter (fun p => !(p.id == inp.id && p.documentId == inp.documentId))
      let st' := { st with pages := remaining }
      match deleted.head? with
      | none => (Except.error { code := ErrCode.NOT_FOUND, message := "Page not found." }, st')
      | some d => (Except.ok d, st')

/-- Input of saveHighlight (actions/index.ts lines 258-267). -/
structure SaveHighlightInput where
  id : Option Int := none
  documentId : Int
  pageId : Option Int := none
  highlightType : Option String := none
  content : String
  meta : Option Json := none
  deriving DecidableEq, Repr

/-- The baseValues record of saveHighlight (actions/index.ts lines 304-311)
applied to a row by the UPDATE branch: full replace, createdAt refreshed. -/
def applyHighlightBase (inp : SaveHighlightInput) (now : Int) (h : Highlight) : Highlight :=
  { h with
    documentId := inp.documentId
    pageId := inp.pageId
    highlightType := inp.highlightType.getD "key_point"
    content := inp.content
    meta := inp.meta
    createdAt := now }

/-- The upsert part of saveHighlight after the guards
(actions/index.ts lines 304-337). -/
def saveHighlightUpsert (inp : SaveHighlightInput) (now : Int) (st : Store) :
    Except ActionError Highlight × Store :=
  if truthyI inp.id then
    let hid := inp.id.getD 0
    match st.highlights.find? (fun h => h.id == hid) with
    | none => (Except.error { code := ErrCode.NOT_FOUND, message := "Highlight not found." }, st)
    | some existing =>
      if existing.documentId == inp.documentId then
        (Except.ok (applyHighlightBase inp now existing),
          { st with highlights :=
              st.highlights.map (fun h =>
                if h.id == hid then applyHighlightBase inp now h else h) })
      else
        (Except.error { code := ErrCode.NOT_FOUND, message := "Highlight not found." }, st)
  else
    let highlight : Highlight :=
      { id := st.nextHighlightId, documentId := inp.documentId
        pageId := inp.pageId, highlightType := inp.highlightType.getD "key_point"
        content := inp.content, meta := inp.meta, createdAt := now }
    (Except.ok highlight,
      { st with highlights := st.highlights ++ [highlight]
                nextHighlightId := st.nextHighlightId + 1 })

/-- saveHighlight handler (actions/index.ts lines 257-339). -/
def saveHighlight (sess : Option String) (inp : SaveHighlightInput) (now : Int)
    (st : Store) : Except ActionError Highlight × Store :=
  match requireUser sess with
  | Except.error e => (Except.error e, st)
  | Except.ok uid =>
    match st.documents.find? (fun d => d.id == inp.documentId && d.ownerId == uid) with
    | none => (Except.error { code := ErrCode.NOT_FOUND, message := "Document not found." }, st)
    | some _ =>
      if truthyI inp.pageId then
        match st.pages.find? (fun p =>
            p.id == inp.pageId.getD 0 && p.documentId == inp.documentId) with
        | none => (Except.error { code := ErrCode.NOT_FOUND, message := "Page not found." }, st)
        | some _ => saveHighlightUpsert inp now st
      else
        saveHighlightUpsert inp now st

/-- Input of deleteHighlight (actions/index.ts lines 342-345). -/
structure DeleteHighlightInput where
  id : Int
  documentId : Int
  deriving DecidableEq, Repr

/-- deleteHighlight handler (actions/index.ts lines 341-381). -/
def deleteHighlight (sess : Option String) (inp : DeleteHighlightInput) (st : Store) :
    Except ActionError Highlight × Store :=
  match requireUser sess with
  | Except.error e => (Except.error e, st)
  | Except.ok uid =>
    match st.documents.find? (fun d => d.id == inp.documentId && d.ownerId == uid) with
    | none => (Except.error { code := ErrCode.NOT_FOUND, message := "Document not found." }, st)
    | some _ =>
      let deleted := st.highlights.filter (fun h =>
        h.id == inp.id && h.documentId == inp.documentId)
      let remaining := st.highlights.filter (fun h =>
        !(h.id == inp.id && h.documentId == inp.documentId))
      let st' := { st with highlights := remaining }
      match deleted.head? with
      | none => (Except.error { code := ErrCode.NOT_FOUND, message := "Highlight not found." }, st')
      | some d => (Except.ok d, st')

/-- Input of createScanJob (actions/index.ts lines 384-391). -/
structure CreateScanJobInput where
  documentId : Option Int := none
  pageId : Option Int := none
  jobType : Option String := none
  input : Option Json := none
  output : Option Json := none
  status : Option String := none
  deriving DecidableEq, Repr

/-- The INSERT of createScanJob (actions/index.ts lines 425-439), reached once
both guards have passed. -/
def createScanJobInsert (uid : String) (inp : CreateScanJobInput) (now : Int)
    (st : Store) : Except ActionError ScanJob × Store :=
  let job : ScanJob :=
    { id := st.nextJobId, documentId := inp.documentId, pageId := inp.pageId
      userId := some uid, jobType := inp.jobType.getD "full_pipeline"
      input := inp.input, output := inp.output
      status := inp.status.getD "pending", createdAt := now }
  (Except.ok job, { st with jobs := st.jobs ++ [job], nextJobId := st.nextJobId + 1 })

/-- The pageId guard of createScanJob (actions/index.ts lines 410-423):
existence only, no document-consistency check. -/
def createScanJobPageGuard (uid : String) (inp : CreateScanJobInput) (now : Int)
    (st : Store) : Except ActionError ScanJob × Store :=
  if truthyI inp.pageId then
    match st.pages.find? (fun p => p.id == inp.pageId.getD 0) with
    | none => (Except.error { code := ErrCode.NOT_FOUND, message := "Page not found." }, st)
    | some _ => createScanJobInsert uid inp now st
  else
    createScanJobInsert uid inp now st

/-- createScanJob handler (actions/index.ts lines 383-441). -/
def createScanJob (sess : Option String) (inp : CreateScanJobInput) (now : Int)
    (st : Store) : Except ActionError ScanJob × Store :=
  match requireUser sess with
  | Except.error e => (Except.error e, st)
  | Except.ok uid =>
    if truthyI inp.documentId then
      match st.documents.find? (fun d =>
          d.id == inp.documentId.getD 0 && d.ownerId == uid) with
      | none => (Except.error { code := ErrCode.NOT_FOUND, message := "Document not found." }, st)
      | some _ => createScanJobPageGuard uid inp now st
    else
      createScanJobPageGuard uid inp now st

/-- Input of listScanJobs (actions/index.ts lines 444-450). -/
structure ListScanJobsInput where
  documentId : Option Int := none
  pageId : Option Int := none
  status : Option String := none
  deriving DecidableEq, Repr

/-- The per-job filter predicate of listScanJobs (actions/index.ts lines 466-472). -/
def scanJobFilter (allowedDocIds : List Int) (inp : Option ListScanJobsInput)
    (job : ScanJob) : Bool :=
  let matchesDoc :=
    if truthyI job.documentId then allowedDocIds.contains (job.documentId.getD 0) else true
  let matchesPage :=
    if truthyI (inp.bind (fun i => i.pageId)) then job.pageId == inp.bind (fun i => i.pageId)
    else true
  let matchesStatus :=
    if truthyS (inp.bind (fun i => i.status)) then some job.status == inp.bind (fun i => i.status)
    else true
  let matchesRequestedDoc :=
    if truthyI (inp.bind (fun i => i.documentId)) then
      job.documentId == inp.bind (fun i => i.documentId)
    else true
  matchesDoc && matchesPage && matchesStatus && matchesRequestedDoc

/-- listScanJobs handler (actions/index.ts lines 443-476). -/
def listScanJobs (sess : Option String) (inp : Option ListScanJobsInput)
    (st : Store) : Except ActionError (List ScanJob) × Store :=
  match requireUser sess with
  | Except.error e => (Except.error e, st)
  | Except.ok uid =>
    let documents := st.documents.filter (fun d => d.ownerId == uid)
    let allowedDocIds := documents.map (fun d => d.id)
    let jobs := st.jobs.filter (fun j => j.userId == some uid)
    (Except.ok (jobs.filter (scanJobFilter allowedDocIds inp)), st)

/-! ### Invariants and the action step relation -/

/-- The highlight-to-page link invariant exactly as the spec states it
(spec section 3): a highlight whose pageId is set references an existing
page whose documentId equals the highlight's documentId. -/
def hlStrictOk (pages : List Page) (h : Highlight) : Bool :=
  match h.pageId with
  | none => true
  | some p => pages.any (fun pg => pg.id == p && pg.documentId == h.documentId)

/-- The spec's invariant over a whole store. -/
def HlInvStrict (st : Store) : Bool :=
  st.highlights.all (hlStrictOk st.pages)

/-- The link invariant weakened at pageId 0, which JavaScript truthiness in
saveHighlight treats as absent. -/
def hlOk (pages : List Page) (h : Highlight) : Bool :=
  match h.pageId with
  | none => true
  | some p => p == 0 || pages.any (fun pg => pg.id == p && pg.documentId == h.documentId)

/-- The weakened link invariant over a whole store. -/
def HlInv (st : Store) : Bool :=
  st.highlights.all (hlOk st.pages)

/-- Page primary keys are pairwise distinct, as the schema's primary-key
declaration guarantees for every database-produced store. -/
abbrev pagesPkUnique (st : Store) : Prop :=
  (st.pages.map (fun p => p.id)).Nodup

/-- One invocation of any exposed action, with its session and input. -/
inductive Act
  | createDoc (sess : Option String) (inp : CreateDocumentInput) (now : Int)
  | updateDoc (sess : Option String) (inp : UpdateDocumentInput) (now : Int)
  | listDocs (sess : Option String)
  | getDocPages (sess : Option String) (id : Int)
  | savePg (sess : Option String) (inp : SavePageInput) (now : Int)
  | deletePg (sess : Option String) (inp : DeletePageInput)
  | saveHl (sess : Option String) (inp : SaveHighlightInput) (now : Int)
  | deleteHl (sess : Option String) (inp : DeleteHighlightInput)
  | createJob (sess : Option String) (inp : CreateScanJobInput) (now : Int)
  | listJobs (sess : Option String) (inp : Option ListScanJobsInput)
  deriving DecidableEq, Repr

/-- Whether an action is a deletePage call. -/
def Act.isDeletePg : Act → Bool
  | Act.deletePg _ _ => true
  | _ => false

/-- The store left behind by one action invocation (errors included: the store
reflects whatever statements ran before the handler returned or threw). -/
def runAct (a : Act) (st : Store) : Store :=
  match a with
  | Act.createDoc sess inp now => (createDocument sess inp now st).2
  | Act.updateDoc sess inp now => (updateDocument sess inp now st).2
  | Act.listDocs sess => (listDocuments sess st).2
  | Act.getDocPages sess id => (getDocumentWithPages sess id st).2
  | Act.savePg sess inp now => (savePage sess inp now st).2
  | Act.deletePg sess inp => (deletePage sess inp st).2
  | Act.saveHl sess inp now => (saveHighlight sess inp now st).2
  | Act.deleteHl sess inp => (deleteHighlight sess inp st).2
  | Act.createJob sess inp now => (createScanJob sess inp now st).2
  | Act.listJobs sess inp => (listScanJobs sess inp st).2

/-! ### Concrete fixtures used by witnesses and counterexamples -/

/-- A document with id 1 owned by user u. -/
def docU : Doc :=
  { id := 1, ownerId := "u", title := "T", description := none,
    subject := none, gradeLevel := none, board := none, sourceType := "image_set",
    sourceMeta := none, createdAt := 0, updatedAt := 0 }

/-- A document with id 5 owned by user v. -/
def docV : Doc :=
  { id := 5, ownerId := "v", title := "S", description := none,
    subject := none, gradeLevel := none, board := none, sourceType := "image_set",
    sourceMeta := none, createdAt := 0, updatedAt := 0 }

/-- A page with id 1 under document 1. -/
def pageU : Page :=
  { id := 1, documentId := 1, pageNumber := 1, imageUrl := none, ocrText := none,
    ocrBlocks := none, createdAt := 0, updatedAt := 0 }

/-- A page with id 1 under document 2. -/
def pageWrongDoc : Page :=
  { id := 1, documentId := 2, pageNumber := 1, imageUrl := none, ocrText := none,
    ocrBlocks := none, createdAt := 0, updatedAt := 0 }

/-- A highlight with id 1 under document 1, linked to page 1. -/
def hlU : Highlight :=
  { id := 1, documentId := 1, pageId := some 1, highlightType := "key_point",
    content := "c", meta := none, createdAt := 0 }

/-- A scan job of user u whose documentId is 0. -/
def jobZero : ScanJob :=
  { id := 1, documentId := some 0, pageId := none, userId := some "u",
    jobType := "full_pipeline", input := none, output := none, status := "pending",
    createdAt := 0 }

/-- A scan job of user u whose documentId is 1. -/
def jobOne : ScanJob :=
  { id := 2, documentId := some 1, pageId := none, userId := some "u",
    jobType := "full_pipeline", input := none, output := none, status := "pending",
    createdAt := 0 }

/-- Store holding only docU. -/
def storeU : Store :=
  { emptyStore with documents := [docU], nextDocId := 2 }

/-- Store holding docU and pageU. -/
def storeUPage : Store :=
  { storeU with pages := [pageU], nextPageId := 2 }

/-- Store holding docU, pageU and hlU. -/
def storeUHl : Store :=
  { storeUPage with highlights := [hlU], nextHighlightId := 2 }

/-- Store holding docU plus the two sample jobs. -/
def storeJobs : Store :=
  { storeU with jobs := [jobZero, jobOne], nextJobId := 3 }

/-- Store holding docV (owned by v) and pageWrongDoc. -/
def storeWrongPage : Store :=
  { emptyStore with documents := [docV], pages := [pageWrongDoc] }

/-- Reachability chain for the dangling-highlight counterexample: a fresh
document. -/
def stReach1 : Store := (createDocument (some "u") { title := "T" } 0 emptyStore).2

/-- Reachability chain: a page saved under document 1. -/
def stReach2 : Store := (savePage (some "u") { documentId := 1 } 0 stReach1).2

/-- Reachability chain: a highlight linked to page 1 of document 1. -/
def stReach3 : Store :=
  (saveHighlight (some "u") { documentId := 1, pageId := some 1, content := "c" } 0 stReach2).2

/-- Reachability chain: page 1 deleted while the highlight still references it. -/
def stReach4 : Store := (deletePage (some "u") { id := 1, documentId := 1 } stReach3).2

/-- Reachability chain for the zero-pageId counterexample: saveHighlight with
pageId 0 on a store with no pages at all. -/
def stReachZero : Store :=
  (saveHighlight (some "u") { documentId := 1, pageId := some 0, content := "z" } 0 stReach1).2

/-! ### Helper lemmas -/

/-- An in-place map that rewrites exactly the rows matched by the predicate
keeps the first match in place, provided the rewrite preserves the predicate.
This is the shape of every UPDATE ... WHERE in the embedding. -/
theorem find?_map_if {α : Type} (q : α → Bool) (g : α → α)
    (hg : ∀ x, q x = true → q (g x) = true) :
    ∀ (l : List α) (a : α), l.find? q = some a →
      (l.map (fun x => if q x then g x else x)).find? q = some (g a) := by
  intro l
  induction l with
  | nil => intro a h; simp at h
  | cons b t ih =>
    intro a h
    by_cases hb : q b = true
    · rw [List.find?_cons_of_pos _ hb] at h
      injection h with h
      subst h
      simp only [List.map_cons, if_pos hb]
      exact List.find?_cons_of_pos _ (hg _ hb)
    · rw [List.find?_cons_of_neg _ hb] at h
      simp only [List.map_cons, if_neg hb]
      rw [List.find?_cons_of_neg _ hb]
      exact ih a h

/-- A successful createScanJob call is exactly the guarded INSERT. -/
theorem createScanJob_ok_insert (uid : String) (inp : CreateScanJobInput) (now : Int)
    (st : Store) (j : ScanJob) (st' : Store)
    (h : createScanJob (some uid) inp now st = (Except.ok j, st')) :
    createScanJobInsert uid inp now st = (Except.ok j, st') := by
  unfold createScanJob at h
  simp only [requireUser] at h
  split at h
  · split at h
    · simp at h
    · unfold createScanJobPageGuard at h
      split at h
      · split at h
        · simp at h
        · exact h
      · exact h
  · unfold createScanJobPageGuard at h
    split at h
    · split at h
      · simp at h
      · exact h
    · exact h

/-- The pageId guard of createScanJob falls through to the INSERT when the
pageId is non-truthy or names an existing page. -/
theorem createScanJobPageGuard_passes (uid : String) (inp : CreateScanJobInput)
    (now : Int) (st : Store)
    (h : truthyI inp.pageId = false ∨
      ∃ pg, st.pages.find? (fun p => p.id == inp.pageId.getD 0) = some pg) :
    createScanJobPageGuard uid inp now st = createScanJobInsert uid inp now st := by
  unfold createScanJobPageGuard
  rcases h with hf | ⟨pg, hfind⟩
  · rw [if_neg (by simp [hf])]
  · cases htr : truthyI inp.pageId with
    | false => rw [if_neg (by simp)]
    | true => rw [if_pos rfl, hfind]

/-- An Option whose isSome is false is none. -/
theorem optEqNone {A : Type} (o : Option A) (h : o.isSome = false) : o = none := by
  cases o with
  | none => rfl
  | some v => simp at h

/-- Filtering with a predicate after keeping only its complement yields nothing. -/
theorem filter_not_filter_eq_nil {α : Type} (p : α → Bool) (l : List α) :
    (l.filter (fun a => !(p a))).filter p = [] := by
  induction l with
  | nil => rfl
  | cons b t ih =>
    by_cases hb : p b = true
    · simp only [List.filter_cons, hb, Bool.not_true, if_neg]
      exact ih
    · have hb' : p b = false := by simpa using hb
      simp only [List.filter_cons, hb', Bool.not_false, if_pos, ite_true]
      simp [hb', ih]

/-- Filtering twice with the same predicate filters once. -/
theorem filter_idem {α : Type} (q : α → Bool) (l : List α) :
    (l.filter q).filter q = l.filter q := by
  induction l with
  | nil => rfl
  | cons b t ih =>
    by_cases hb : q b = true <;> simp [List.filter_cons, hb, ih]

/-! ### Claim theorems -/

/-- Claim C7: for every owned document, updateDocument with an input containing
only the id performs no write (the store is returned unchanged) and returns the
stored record unchanged. -/
theorem updateDocument_id_only_no_write (uid : String) (i now : Int) (st : Store) (ex : Doc)
    (hfind : st.documents.find? (fun d => d.id == i && d.ownerId == uid) = some ex) :
    updateDocument (some uid) { id := i } now st = (Except.ok ex, st) := by
  simp [updateDocument, requireUser, hfind, anyDocFieldSupplied]

/-- Witness for claim C7, at a one-document store. -/
theorem updateDocument_id_only_no_write_witness :
    storeU.documents.find? (fun d => d.id == 1 && d.ownerId == "u") = some docU ∧
    updateDocument (some "u") { id := 1 } 7 storeU = (Except.ok docU, storeU) :=
  ⟨by decide, updateDocument_id_only_no_write "u" 1 7 storeU docU (by decide)⟩

/-- Claim C2 counterexample: the ScanJobs schema declares "completed", not
"pending", as the default value of the status column. -/
theorem scanJobs_schema_default_counterexample :
    scanJobsStatusDefault = "completed" ∧ scanJobsStatusDefault ≠ "pending" :=
  ⟨rfl, by decide⟩

/-- Claim C2 (amended): the ScanJobs schema declares "completed" as the status
default, but a createScanJob call in which status is omitted nevertheless
inserts a job whose status is "pending", because the handler supplies the
fallback itself. -/
theorem scanJobs_status_default_behavior :
    scanJobsStatusDefault = "completed" ∧
    ∀ (uid : String) (inp : CreateScanJobInput) (now : Int) (st : Store)
      (j : ScanJob) (st' : Store),
      inp.status = none →
      createScanJob (some uid) inp now st = (Except.ok j, st') →
      j.status = "pending" := by
  refine ⟨rfl, ?_⟩
  intro uid inp now st j st' hstat h
  have h' := createScanJob_ok_insert uid inp now st j st' h
  unfold createScanJobInsert at h'
  simp only [Prod.mk.injEq, Except.ok.injEq] at h'
  rw [← h'.1]
  simp [hstat]

/-- Witness for claim C2's amended theorem. -/
theorem scanJobs_status_default_behavior_witness :
    ({} : CreateScanJobInput).status = none ∧
    (createScanJob (some "u") {} 0 emptyStore).1 =
      Except.ok { id := 1, documentId := none, pageId := none, userId := some "u",
                  jobType := "full_pipeline", input := none, output := none,
                  status := "pending", createdAt := 0 } ∧
    ({ id := 1, documentId := none, pageId := none, userId := some "u",
       jobType := "full_pipeline", input := none, output := none,
       status := "pending", createdAt := 0 } : ScanJob).status = "pending" := by
  refine ⟨rfl, by rfl, ?_⟩
  exact scanJobs_status_default_behavior.2 "u" {} 0 emptyStore _
    (createScanJob (some "u") {} 0 emptyStore).2 rfl (by rfl)

/-- Claim C10: savePage with id 0 never takes the update branch: the result is
identical to the same call with no id, and the call can never fail with the
"Page not found." error. -/
theorem savePage_zero_id_inserts (sess : Option String) (d : Int) (pn : Option Int)
    (iu ot : Option String) (ob : Option Json) (now : Int) (st : Store) :
    savePage sess ⟨some 0, d, pn, iu, ot, ob⟩ now st =
      savePage sess ⟨none, d, pn, iu, ot, ob⟩ now st ∧
    (savePage sess ⟨some 0, d, pn, iu, ot, ob⟩ now st).1 ≠
      Except.error { code := ErrCode.NOT_FOUND, message := "Page not found." } := by
  cases sess with
  | none =>
    refine ⟨rfl, ?_⟩
    simp [savePage, requireUser]
  | some uid =>
    constructor
    · unfold savePage
      simp only [requireUser]
      cases hd : st.documents.find? (fun x => x.id == d && x.ownerId == uid) with
      | none => simp [hd]
      | some doc => simp [hd, truthyI]
    · unfold savePage
      simp only [requireUser]
      cases hd : st.documents.find? (fun x => x.id == d && x.ownerId == uid) with
      | none => simp [hd]
      | some doc => simp [hd, truthyI]

/-- Witness for claim C10, at a store holding one page with id 1. -/
theorem savePage_zero_id_inserts_witness :
    savePage (some "u") { id := some 0, documentId := 1 } 5 storeUPage =
      savePage (some "u") { id := none, documentId := 1 } 5 storeUPage ∧
    (savePage (some "u") { id := some 0, documentId := 1 } 5 storeUPage).1 ≠
      Except.error { code := ErrCode.NOT_FOUND, message := "Page not found." } :=
  savePage_zero_id_inserts (some "u") 1 none none none none 5 storeUPage

/-- Claim C8 counterexample: a savePage call whose id names an existing page of
a different document does not produce the "Page not found." message when the
supplied documentId is not owned by the caller: the ownership guard fires
first, with "Document not found.". -/
theorem savePage_unowned_document_message_counterexample :
    pageWrongDoc ∈ storeWrongPage.pages ∧ pageWrongDoc.id = 1 ∧
    pageWrongDoc.documentId ≠ 5 ∧
    savePage (some "u") { id := some 1, documentId := 5 } 0 storeWrongPage =
      (Except.error { code := ErrCode.NOT_FOUND, message := "Document not found." },
        storeWrongPage) ∧
    ("Document not found." : String) ≠ "Page not found." := by
  refine ⟨by decide, rfl, by decide, by rfl, by decide⟩

/-- Claim C8 (amended): provided the supplied documentId belongs to the acting
user, a savePage call with a non-zero id naming an existing page of a different
documentId fails with NOT_FOUND "Page not found." and leaves the store
unchanged; if the documentId is not owned the call fails earlier, still with
NOT_FOUND, but with "Document not found.". -/
theorem savePage_wrong_document_not_found (uid : String) (inp : SavePageInput)
    (now : Int) (st : Store) (pid : Int) (doc : Doc) (ex : Page)
    (hid : inp.id = some pid) (hnz : pid ≠ 0)
    (hdoc : st.documents.find? (fun d => d.id == inp.documentId && d.ownerId == uid) = some doc)
    (hpg : st.pages.find? (fun p => p.id == pid) = some ex)
    (hne : ex.documentId ≠ inp.documentId) :
    savePage (some uid) inp now st =
      (Except.error { code := ErrCode.NOT_FOUND, message := "Page not found." }, st) := by
  unfold savePage
  simp only [requireUser, hdoc]
  have htr : truthyI inp.id = true := by simp [truthyI, hid, hnz]
  rw [if_pos htr]
  have hgd : inp.id.getD 0 = pid := by rw [hid]; rfl
  rw [hgd, hpg]
  simp [hne]

/-- Witness for claim C8's amended theorem: user u owns document 1, page 1
belongs to document 2. -/
theorem savePage_wrong_document_not_found_witness :
    ({ id := some 1, documentId := 1 } : SavePageInput).id = some 1 ∧ (1 : Int) ≠ 0 ∧
    (let st : Store := { storeU with pages := [pageWrongDoc] }
     st.documents.find? (fun d => d.id == 1 && d.ownerId == "u") = some docU ∧
     st.pages.find? (fun p => p.id == 1) = some pageWrongDoc ∧
     pageWrongDoc.documentId ≠ 1 ∧
     savePage (some "u") { id := some 1, documentId := 1 } 0 st =
       (Except.error { code := ErrCode.NOT_FOUND, message := "Page not found." }, st)) :=
  ⟨rfl, by decide, by decide, by decide, by decide,
    savePage_wrong_document_not_found "u" { id := some 1, documentId := 1 } 0
      { storeU with pages := [pageWrongDoc] } 1 docU pageWrongDoc rfl (by decide)
      (by decide) (by decide) (by decide)⟩

/-- Claim C5: updateDocument overwrites exactly the fields explicitly present
in the input, keeps every omitted field at its stored value, keeps id, owner
and creation timestamp, and refreshes updatedAt whenever at least one field is
supplied; the updated record is what the store then holds. -/
theorem updateDocument_partial_merge (uid : String) (inp : UpdateDocumentInput)
    (now : Int) (st : Store) (ex : Doc)
    (hfind : st.documents.find? (fun d => d.id == inp.id && d.ownerId == uid) = some ex) :
    ∃ d' st',
      updateDocument (some uid) inp now st = (Except.ok d', st') ∧
      d'.id = ex.id ∧ d'.ownerId = ex.ownerId ∧ d'.createdAt = ex.createdAt ∧
      d'.title = inp.title.getD ex.title ∧
      d'.description = patchOpt inp.description ex.description ∧
      d'.subject = patchOpt inp.subject ex.subject ∧
      d'.gradeLevel = patchOpt inp.gradeLevel ex.gradeLevel ∧
      d'.board = patchOpt inp.board ex.board ∧
      d'.sourceType = inp.sourceType.getD ex.sourceType ∧
      d'.sourceMeta = patchOpt inp.sourceMeta ex.sourceMeta ∧
      (anyDocFieldSupplied inp = true → d'.updatedAt = now) ∧
      (anyDocFieldSupplied inp = false → d' = ex ∧ st' = st) ∧
      st'.documents.find? (fun d => d.id == inp.id && d.ownerId == uid) = some d' := by
  unfold updateDocument
  simp only [requireUser, hfind]
  by_cases hsup : anyDocFieldSupplied inp = true
  · rw [if_pos hsup]
    refine ⟨applyDocUpdate inp now ex, _, rfl, rfl, rfl, rfl, rfl, rfl, rfl, rfl, rfl, rfl, rfl,
      fun _ => rfl, fun hf => absurd hsup (by simp [hf]), ?_⟩
    exact find?_map_if (fun d => d.id == inp.id && d.ownerId == uid) (applyDocUpdate inp now)
      (fun x hx => hx) st.documents ex hfind
  · have hsupf : anyDocFieldSupplied inp = false := by
      cases h : anyDocFieldSupplied inp
      · rfl
      · exact absurd h hsup
    rw [if_neg hsup]
    simp only [anyDocFieldSupplied, Bool.or_eq_false_iff] at hsupf
    obtain ⟨⟨⟨⟨⟨⟨h1, h2⟩, h3⟩, h4⟩, h5⟩, h6⟩, h7⟩ := hsupf
    rw [optEqNone _ h1, optEqNone _ h2, optEqNone _ h3, optEqNone _ h4, optEqNone _ h5,
      optEqNone _ h6, optEqNone _ h7]
    exact ⟨ex, st, rfl, rfl, rfl, rfl, rfl, rfl, rfl, rfl, rfl, rfl, rfl,
      fun ht => absurd ht hsup, fun _ => ⟨rfl, rfl⟩, hfind⟩

/-- Witness for claim C5: supplying only a new title overwrites the title,
keeps the other fields and refreshes updatedAt. -/
theorem updateDocument_partial_merge_witness :
    storeU.documents.find? (fun d => d.id == 1 && d.ownerId == "u") = some docU ∧
    (∃ d' st',
      updateDocument (some "u") { id := 1, title := some "N" } 9 storeU = (Except.ok d', st') ∧
      d'.id = docU.id ∧ d'.ownerId = docU.ownerId ∧ d'.createdAt = docU.createdAt ∧
      d'.title = (some "N").getD docU.title ∧
      d'.description = patchOpt none docU.description ∧
      d'.subject = patchOpt none docU.subject ∧
      d'.gradeLevel = patchOpt none docU.gradeLevel ∧
      d'.board = patchOpt none docU.board ∧
      d'.sourceType = (none : Option String).getD docU.sourceType ∧
      d'.sourceMeta = patchOpt none docU.sourceMeta ∧
      (anyDocFieldSupplied { id := 1, title := some "N" } = true → d'.updatedAt = 9) ∧
      (anyDocFieldSupplied { id := 1, title := some "N" } = false → d' = docU ∧ st' = storeU) ∧
      st'.documents.find? (fun d => d.id == 1 && d.ownerId == "u") = some d') :=
  ⟨by decide, updateDocument_partial_merge "u" { id := 1, title := some "N" } 9 storeU docU
    (by decide)⟩

/-- Claim C6: with a non-zero id naming an existing page of the supplied owned
documentId, savePage overwrites every writable field with the supplied value,
clearing omitted optional fields, defaulting pageNumber to 1 and refreshing
both timestamps, touching no other table. -/
theorem savePage_full_replace (uid : String) (inp : SavePageInput) (now : Int)
    (st : Store) (pid : Int) (doc : Doc) (ex : Page)
    (hid : inp.id = some pid) (hnz : pid ≠ 0)
    (hdoc : st.documents.find? (fun d => d.id == inp.documentId && d.ownerId == uid) = some doc)
    (hpg : st.pages.find? (fun p => p.id == pid) = some ex)
    (heq : ex.documentId = inp.documentId) :
    ∃ pg st',
      savePage (some uid) inp now st = (Except.ok pg, st') ∧
      pg.id = ex.id ∧
      pg.documentId = inp.documentId ∧
      pg.pageNumber = inp.pageNumber.getD 1 ∧
      pg.imageUrl = inp.imageUrl ∧
      pg.ocrText = inp.ocrText ∧
      pg.ocrBlocks = inp.ocrBlocks ∧
      pg.createdAt = now ∧ pg.updatedAt = now ∧
      st'.pages.find? (fun p => p.id == pid) = some pg ∧
      st'.documents = st.documents ∧ st'.highlights = st.highlights ∧ st'.jobs = st.jobs := by
  unfold savePage
  simp only [requireUser, hdoc]
  have htr : truthyI inp.id = true := by simp [truthyI, hid, hnz]
  rw [if_pos htr]
  have hgd : inp.id.getD 0 = pid := by rw [hid]; rfl
  rw [hgd, hpg]
  have hbeq : (ex.documentId == inp.documentId) = true := by simp [heq]
  dsimp only
  rw [if_pos hbeq]
  refine ⟨applyPageBase inp now ex, _, rfl, rfl, rfl, rfl, rfl, rfl, rfl, rfl, rfl, ?_, rfl,
    rfl, rfl⟩
  exact find?_map_if (fun p => p.id == pid) (applyPageBase inp now)
    (fun x hx => hx) st.pages ex hpg

/-- Witness for claim C6: updating page 1 of document 1 with all optional
fields omitted clears them and resets pageNumber to 1. -/
theorem savePage_full_replace_witness :
    ({ id := some 1, documentId := 1 } : SavePageInput).id = some 1 ∧ (1 : Int) ≠ 0 ∧
    storeUPage.documents.find? (fun d => d.id == 1 && d.ownerId == "u") = some docU ∧
    storeUPage.pages.find? (fun p => p.id == 1) = some pageU ∧
    pageU.documentId = 1 ∧
    (∃ pg st',
      savePage (some "u") { id := some 1, documentId := 1 } 4 storeUPage = (Except.ok pg, st') ∧
      pg.id = pageU.id ∧ pg.documentId = 1 ∧
      pg.pageNumber = (none : Option Int).getD 1 ∧
      pg.imageUrl = none ∧ pg.ocrText = none ∧ pg.ocrBlocks = none ∧
      pg.createdAt = 4 ∧ pg.updatedAt = 4 ∧
      st'.pages.find? (fun p => p.id == 1) = some pg ∧
      st'.documents = storeUPage.documents ∧ st'.highlights = storeUPage.highlights ∧
      st'.jobs = storeUPage.jobs) :=
  ⟨rfl, by decide, by decide, by decide, rfl,
    savePage_full_replace "u" { id := some 1, documentId := 1 } 4 storeUPage 1 docU pageU
      rfl (by decide) (by decide) (by decide) rfl⟩

/-- Claim C9: after a successful deletePage (respectively deleteHighlight), a
second call with the same arguments fails with NOT_FOUND and leaves the store
exactly as the first call left it. -/
theorem delete_twice_not_found :
    (∀ (uid : String) (inp : DeletePageInput) (st st1 : Store) (pg : Page),
      deletePage (some uid) inp st = (Except.ok pg, st1) →
      deletePage (some uid) inp st1 =
        (Except.error { code := ErrCode.NOT_FOUND, message := "Page not found." }, st1)) ∧
    (∀ (uid : String) (inp : DeleteHighlightInput) (st st1 : Store) (hl : Highlight),
      deleteHighlight (some uid) inp st = (Except.ok hl, st1) →
      deleteHighlight (some uid) inp st1 =
        (Except.error { code := ErrCode.NOT_FOUND, message := "Highlight not found." }, st1)) := by
  constructor
  · intro uid inp st st1 pg h1
    unfold deletePage at h1 ⊢
    simp only [requireUser] at h1 ⊢
    cases hdoc : st.documents.find? (fun d => d.id == inp.documentId && d.ownerId == uid) with
    | none => rw [hdoc] at h1; simp at h1
    | some doc =>
      rw [hdoc] at h1
      cases hhd : (st.pages.filter
          (fun p => p.id == inp.id && p.documentId == inp.documentId)).head? with
      | none => rw [hhd] at h1; simp at h1
      | some p0 =>
        rw [hhd] at h1
        simp only [Prod.mk.injEq, Except.ok.injEq] at h1
        obtain ⟨_, hst1⟩ := h1
        subst hst1
        dsimp only
        rw [hdoc]
        rw [filter_not_filter_eq_nil
          (fun p => p.id == inp.id && p.documentId == inp.documentId) st.pages]
        simp only [List.head?_nil]
        rw [filter_idem (fun p => !(p.id == inp.id && p.documentId == inp.documentId)) st.pages]
  · intro uid inp st st1 hl h1
    unfold deleteHighlight at h1 ⊢
    simp only [requireUser] at h1 ⊢
    cases hdoc : st.documents.find? (fun d => d.id == inp.documentId && d.ownerId == uid) with
    | none => rw [hdoc] at h1; simp at h1
    | some doc =>
      rw [hdoc] at h1
      cases hhd : (st.highlights.filter
          (fun h => h.id == inp.id && h.documentId == inp.documentId)).head? with
      | none => rw [hhd] at h1; simp at h1
      | some h0 =>
        rw [hhd] at h1
        simp only [Prod.mk.injEq, Except.ok.injEq] at h1
        obtain ⟨_, hst1⟩ := h1
        subst hst1
        dsimp only
        rw [hdoc]
        rw [filter_not_filter_eq_nil
          (fun h => h.id == inp.id && h.documentId == inp.documentId) st.highlights]
        simp only [List.head?_nil]
        rw [filter_idem (fun h => !(h.id == inp.id && h.documentId == inp.documentId))
          st.highlights]

/-- Witness for claim C9, deleting page 1 then highlight 1 of document 1. -/
theorem delete_twice_not_found_witness :
    (deletePage (some "u") { id := 1, documentId := 1 } storeUHl =
      (Except.ok pageU, { storeUHl with pages := [] }) ∧
     deletePage (some "u") { id := 1, documentId := 1 } { storeUHl with pages := [] } =
      (Except.error { code := ErrCode.NOT_FOUND, message := "Page not found." },
        { storeUHl with pages := [] })) ∧
    (deleteHighlight (some "u") { id := 1, documentId := 1 } storeUHl =
      (Except.ok hlU, { storeUHl with highlights := [] }) ∧
     deleteHighlight (some "u") { id := 1, documentId := 1 } { storeUHl with highlights := [] } =
      (Except.error { code := ErrCode.NOT_FOUND, message := "Highlight not found." },
        { storeUHl with highlights := [] })) :=
  ⟨⟨by rfl, delete_twice_not_found.1 "u" { id := 1, documentId := 1 } storeUHl
      { storeUHl with pages := [] } pageU (by rfl)⟩,
   ⟨by rfl, delete_twice_not_found.2 "u" { id := 1, documentId := 1 } storeUHl
      { storeUHl with highlights := [] } hlU (by rfl)⟩⟩

/-- Claim C4 counterexample: createScanJob with documentId 0 (an integer the
validator accepts) skips the ownership check and inserts, even though no
document with id 0 owned by the caller exists; and with an owned documentId
but a dangling pageId the call fails instead of inserting. -/
theorem createScanJob_zero_documentId_counterexample :
    (emptyStore.documents = [] ∧
     createScanJob (some "u") { documentId := some 0 } 0 emptyStore =
       (Except.ok jobZero, { emptyStore with jobs := [jobZero], nextJobId := 2 })) ∧
    ((docU ∈ storeU.documents ∧ docU.id = 1 ∧ docU.ownerId = "u") ∧
     createScanJob (some "u") { documentId := some 1, pageId := some 7 } 0 storeU =
       (Except.error { code := ErrCode.NOT_FOUND, message := "Page not found." }, storeU)) :=
  ⟨⟨rfl, by rfl⟩, ⟨⟨by decide, rfl, rfl⟩, by rfl⟩⟩

/-- Claim C4 (amended): for a supplied non-zero documentId, createScanJob fails
with NOT_FOUND and inserts nothing when no document with that id is owned by
the acting user, and otherwise (provided any supplied non-zero pageId exists)
inserts a job referencing that document. -/
theorem createScanJob_document_guard (uid : String) (inp : CreateScanJobInput)
    (now : Int) (st : Store) (dv : Int)
    (hdv : inp.documentId = some dv) (hnz : dv ≠ 0) :
    (st.documents.find? (fun d => d.id == dv && d.ownerId == uid) = none →
      createScanJob (some uid) inp now st =
        (Except.error { code := ErrCode.NOT_FOUND, message := "Document not found." }, st)) ∧
    (∀ doc, st.documents.find? (fun d => d.id == dv && d.ownerId == uid) = some doc →
      (truthyI inp.pageId = false ∨
        (∃ pg, st.pages.find? (fun p => p.id == inp.pageId.getD 0) = some pg)) →
      ∃ j st', createScanJob (some uid) inp now st = (Except.ok j, st') ∧
        j.documentId = some dv ∧ j.userId = some uid ∧ st'.jobs = st.jobs ++ [j]) := by
  have htr : truthyI inp.documentId = true := by simp [truthyI, hdv, hnz]
  have hgd : inp.documentId.getD 0 = dv := by rw [hdv]; rfl
  constructor
  · intro hnone
    unfold createScanJob
    simp only [requireUser]
    rw [if_pos htr, hgd, hnone]
  · intro doc hdoc hpgok
    unfold createScanJob
    simp only [requireUser]
    rw [if_pos htr, hgd, hdoc]
    dsimp only
    rw [createScanJobPageGuard_passes uid inp now st hpgok]
    exact ⟨_, _, rfl, by rw [hdv], rfl, rfl⟩

/-- Claim C1 counterexample: with the filter documentId 0 supplied, listScanJobs
ignores the filter (truthiness) and returns a job whose documentId 1 does not
match it, as well as a job whose documentId 0 is present yet is no owned
document's id. -/
theorem listScanJobs_zero_filter_counterexample :
    (listScanJobs (some "u") (some { documentId := some 0 }) storeJobs).1 =
      Except.ok [jobZero, jobOne] ∧
    jobZero.documentId = some 0 ∧
    storeJobs.documents.all (fun d => d.id != 0) = true ∧
    jobOne.documentId = some 1 ∧ (some 1 : Option Int) ≠ some 0 :=
  ⟨by rfl, rfl, by decide, rfl, by decide⟩

/-- Claim C1 (amended): every job returned by listScanJobs carries the acting
user's id; a present non-zero documentId is always the id of a document owned
by the acting user (no documentId, or documentId 0, passes the ownership check
vacuously); and every supplied non-zero documentId or pageId filter, and every
supplied status filter, is matched exactly by every returned job. -/
theorem listScanJobs_scope_and_filters (uid : String) (inp : Option ListScanJobsInput)
    (st : Store) (js : List ScanJob) (j : ScanJob)
    (hval : ∀ s, inp.bind (fun i => i.status) = some s → s ∈ scanJobStatusEnum)
    (hres : (listScanJobs (some uid) inp st).1 = Except.ok js)
    (hmem : j ∈ js) :
    j.userId = some uid ∧
    (∀ d, j.documentId = some d → d ≠ 0 →
      ∃ doc ∈ st.documents, doc.id = d ∧ doc.ownerId = uid) ∧
    (∀ d, inp.bind (fun i => i.documentId) = some d → d ≠ 0 → j.documentId = some d) ∧
    (∀ p, inp.bind (fun i => i.pageId) = some p → p ≠ 0 → j.pageId = some p) ∧
    (∀ s, inp.bind (fun i => i.status) = some s → j.status = s) := by
  unfold listScanJobs at hres
  simp only [requireUser] at hres
  injection hres with hres
  subst hres
  rw [List.mem_filter] at hmem
  obtain ⟨hmemU, hflt⟩ := hmem
  rw [List.mem_filter] at hmemU
  obtain ⟨-, huid⟩ := hmemU
  simp only [scanJobFilter, Bool.and_eq_true] at hflt
  obtain ⟨⟨⟨hdocOk, hpageOk⟩, hstatusOk⟩, hreqOk⟩ := hflt
  refine ⟨by simpa using huid, ?_, ?_, ?_, ?_⟩
  · intro d hd hdnz
    rw [hd] at hdocOk
    rw [if_pos (by simp [truthyI, hdnz] : truthyI (some d) = true)] at hdocOk
    simp only [Option.getD_some] at hdocOk
    have hmem2 := List.elem_iff.mp hdocOk
    rcases List.mem_map.mp hmem2 with ⟨doc, hdocmem, hdid⟩
    rcases List.mem_filter.mp hdocmem with ⟨hdmem, hown⟩
    exact ⟨doc, hdmem, hdid, by simpa using hown⟩
  · intro d hd hdnz
    rw [hd] at hreqOk
    rw [if_pos (by simp [truthyI, hdnz] : truthyI (some d) = true)] at hreqOk
    simpa using hreqOk
  · intro p hp hpnz
    rw [hp] at hpageOk
    rw [if_pos (by simp [truthyI, hpnz] : truthyI (some p) = true)] at hpageOk
    simpa using hpageOk
  · intro s hs
    rw [hs] at hstatusOk
    have hse := hval s hs
    simp only [scanJobStatusEnum, List.mem_cons, List.not_mem_nil, or_false] at hse
    have hne : s ≠ "" := by rcases hse with rfl | rfl | rfl <;> decide
    rw [if_pos (by simp [truthyS, hne] : truthyS (some s) = true)] at hstatusOk
    have := hstatusOk
    simp only [beq_iff_eq, Option.some.injEq] at this
    exact this

/-- Witness for claim C1's amended theorem: the pending-status filter on the
two-job store returns jobOne together with the guarantees of the theorem. -/
theorem listScanJobs_scope_and_filters_witness :
    jobOne.userId = some "u" ∧
    (∀ d, jobOne.documentId = some d → d ≠ 0 →
      ∃ doc ∈ storeJobs.documents, doc.id = d ∧ doc.ownerId = "u") ∧
    (∀ d, (some { documentId := some 1, pageId := none, status := some "pending" } :
        Option ListScanJobsInput).bind (fun i => i.documentId) = some d → d ≠ 0 →
      jobOne.documentId = some d) ∧
    (∀ p, (some { documentId := some 1, pageId := none, status := some "pending" } :
        Option ListScanJobsInput).bind (fun i => i.pageId) = some p → p ≠ 0 →
      jobOne.pageId = some p) ∧
    (∀ s, (some { documentId := some 1, pageId := none, status := some "pending" } :
        Option ListScanJobsInput).bind (fun i => i.status) = some s → jobOne.status = s) :=
  listScanJobs_scope_and_filters "u"
    (some { documentId := some 1, pageId := none, status := some "pending" })
    storeJobs [jobOne] jobOne
    (fun s hs => by
      have hs' : some "pending" = some s := hs
      injection hs' with hs'
      rw [← hs']
      decide)
    (by rfl) (by decide)

/-- Witness for claim C4's amended theorem: inserting a job for owned
document 1 with no pageId. -/
theorem createScanJob_document_guard_witness :
    ({ documentId := some 1 } : CreateScanJobInput).documentId = some 1 ∧ (1 : Int) ≠ 0 ∧
    storeU.documents.find? (fun d => d.id == 1 && d.ownerId == "u") = some docU ∧
    (∃ j st', createScanJob (some "u") { documentId := some 1 } 0 storeU = (Except.ok j, st') ∧
      j.documentId = some 1 ∧ j.userId = some "u" ∧ st'.jobs = storeU.jobs ++ [j]) :=
  ⟨rfl, by decide, by decide,
    (createScanJob_document_guard "u" { documentId := some 1 } 0 storeU 1 rfl
      (by decide)).2 docU (by decide) (Or.inl rfl)⟩

/-! ### Claim C3: the highlight-to-page link invariant -/

/-- HlInv only looks at the pages and highlights tables. -/
theorem hlInv_congr (st' st : Store) (hp : st'.pages = st.pages)
    (hh : st'.highlights = st.highlights) : HlInv st' = HlInv st := by
  unfold HlInv
  rw [hp, hh]

/-- listDocuments never changes the store. -/
theorem listDocuments_snd (sess : Option String) (st : Store) :
    (listDocuments sess st).2 = st := by
  unfold listDocuments requireUser
  cases sess <;> rfl

/-- getDocumentWithPages never changes the store. -/
theorem getDocumentWithPages_snd (sess : Option String) (id : Int) (st : Store) :
    (getDocumentWithPages sess id st).2 = st := by
  unfold getDocumentWithPages requireUser
  cases sess
  · rfl
  · dsimp only
    split <;> rfl

/-- listScanJobs never changes the store. -/
theorem listScanJobs_snd (sess : Option String) (inp : Option ListScanJobsInput) (st : Store) :
    (listScanJobs sess inp st).2 = st := by
  unfold listScanJobs requireUser
  cases sess <;> rfl

/-- createDocument touches only the documents table. -/
theorem createDocument_keeps (sess : Option String) (inp : CreateDocumentInput) (now : Int)
    (st : Store) :
    (createDocument sess inp now st).2.pages = st.pages ∧
    (createDocument sess inp now st).2.highlights = st.highlights := by
  unfold createDocument requireUser
  cases sess <;> exact ⟨rfl, rfl⟩

/-- updateDocument touches only the documents table. -/
theorem updateDocument_keeps (sess : Option String) (inp : UpdateDocumentInput) (now : Int)
    (st : Store) :
    (updateDocument sess inp now st).2.pages = st.pages ∧
    (updateDocument sess inp now st).2.highlights = st.highlights := by
  unfold updateDocument requireUser
  cases sess
  case none => exact ⟨rfl, rfl⟩
  case some uid =>
    dsimp only
    split
    · exact ⟨rfl, rfl⟩
    · split <;> exact ⟨rfl, rfl⟩

/-- createScanJob touches only the jobs table. -/
theorem createScanJob_keeps (sess : Option String) (inp : CreateScanJobInput) (now : Int)
    (st : Store) :
    (createScanJob sess inp now st).2.pages = st.pages ∧
    (createScanJob sess inp now st).2.highlights = st.highlights := by
  unfold createScanJob createScanJobPageGuard createScanJobInsert requireUser
  cases sess
  case none => exact ⟨rfl, rfl⟩
  case some uid =>
    dsimp only
    repeat' split
    all_goals exact ⟨rfl, rfl⟩

/-- Removing highlights can only shrink the set the invariant ranges over. -/
theorem hlInv_filter_highlights (st : Store) (q : Highlight → Bool) (hinv : HlInv st = true) :
    HlInv { st with highlights := st.highlights.filter q } = true := by
  simp only [HlInv, List.all_eq_true] at hinv ⊢
  intro h hm
  exact hinv h (List.mem_filter.mp hm).1

/-- deleteHighlight preserves the link invariant. -/
theorem deleteHighlight_preserves_hlInv (sess : Option String) (inp : DeleteHighlightInput)
    (st : Store) (hinv : HlInv st = true) :
    HlInv ((deleteHighlight sess inp st).2) = true := by
  unfold deleteHighlight requireUser
  cases sess
  case none => exact hinv
  case some uid =>
    dsimp only
    split
    · exact hinv
    · split
      · exact hlInv_filter_highlights st _ hinv
      · exact hlInv_filter_highlights st _ hinv

/-- savePage preserves the link invariant: the insert branch only adds pages,
and the update branch keeps the id of the touched page and (by the guard) its
documentId, page primary keys being unique. -/
theorem savePage_preserves_hlInv (sess : Option String) (inp : SavePageInput) (now : Int)
    (st : Store) (hpk : pagesPkUnique st) (hinv : HlInv st = true) :
    HlInv ((savePage sess inp now st).2) = true := by
  unfold savePage requireUser
  cases sess
  case none => exact hinv
  case some uid =>
    dsimp only
    split
    · exact hinv
    · split
      case isTrue htr =>
        cases hpgf : st.pages.find? (fun p => p.id == inp.id.getD 0) with
        | none => exact hinv
        | some ex =>
          dsimp only
          split
          case isTrue hdq =>
            simp only [HlInv, List.all_eq_true] at hinv ⊢
            intro h hm
            have hh := hinv h hm
            unfold hlOk at hh ⊢
            cases hpid : h.pageId with
            | none => simp
            | some p =>
              rw [hpid] at hh
              rw [Bool.or_eq_true] at hh ⊢
              rcases hh with hz | hany
              · exact Or.inl hz
              · right
                rcases List.any_eq_true.mp hany with ⟨pg, hpgmem, hcond⟩
                rw [Bool.and_eq_true] at hcond
                obtain ⟨hpid2, hpdoc⟩ := hcond
                have hpid2' : pg.id = p := by simpa using hpid2
                have hpdoc' : pg.documentId = h.documentId := by simpa using hpdoc
                apply List.any_eq_true.mpr
                by_cases hc : (pg.id == inp.id.getD 0) = true
                · have hexmem := List.mem_of_find?_eq_some hpgf
                  have hexid := List.find?_some hpgf
                  have hpg_eq : pg = ex := by
                    apply List.inj_on_of_nodup_map hpk hpgmem hexmem
                    show pg.id = ex.id
                    have h1 : pg.id = inp.id.getD 0 := by simpa using hc
                    have h2 : ex.id = inp.id.getD 0 := by simpa using hexid
                    rw [h1, h2]
                  refine ⟨applyPageBase inp now pg, ?_, ?_⟩
                  · have hmm := List.mem_map_of_mem
                      (fun p => if (p.id == inp.id.getD 0) = true then applyPageBase inp now p
                        else p) hpgmem
                    dsimp only at hmm
                    rw [if_pos hc] at hmm
                    exact hmm
                  · rw [Bool.and_eq_true]
                    have hdq' : ex.documentId = inp.documentId := by simpa using hdq
                    have hdid : inp.documentId = h.documentId := by
                      rw [hpg_eq, hdq'] at hpdoc'
                      exact hpdoc'
                    constructor
                    · show ((applyPageBase inp now pg).id == p) = true
                      simp [applyPageBase, hpid2']
                    · show ((applyPageBase inp now pg).documentId == h.documentId) = true
                      simp [applyPageBase, hdid]
                · refine ⟨pg, ?_, ?_⟩
                  · have hmm := List.mem_map_of_mem
                      (fun p => if (p.id == inp.id.getD 0) = true then applyPageBase inp now p
                        else p) hpgmem
                    dsimp only at hmm
                    rw [if_neg hc] at hmm
                    exact hmm
                  · rw [Bool.and_eq_true]
                    exact ⟨hpid2, hpdoc⟩
          case isFalse => exact hinv
      case isFalse htr =>
        simp only [HlInv, List.all_eq_true] at hinv ⊢
        intro h hm
        have hh := hinv h hm
        unfold hlOk at hh ⊢
        cases hpid : h.pageId with
        | none => simp
        | some p =>
          rw [hpid] at hh
          rw [Bool.or_eq_true] at hh ⊢
          rcases hh with hz | hany
          · exact Or.inl hz
          · right
            rw [List.any_append, Bool.or_eq_true]
            exact Or.inl hany

/-- The upsert part of saveHighlight preserves the link invariant whenever the
written pageId is absent, zero, or names a page of the written documentId. -/
theorem saveHighlightUpsert_preserves (inp : SaveHighlightInput) (now : Int) (st : Store)
    (hinv : HlInv st = true)
    (hcond : ∀ p, inp.pageId = some p → p ≠ 0 →
      ∃ pg ∈ st.pages, pg.id = p ∧ pg.documentId = inp.documentId) :
    HlInv ((saveHighlightUpsert inp now st).2) = true := by
  have hnew : ∀ (h' : Highlight), h'.pageId = inp.pageId → h'.documentId = inp.documentId →
      hlOk st.pages h' = true := by
    intro h' hp hd
    cases hq : inp.pageId with
    | none => simp [hlOk, hp, hq]
    | some p =>
      by_cases hz : p = 0
      · simp [hlOk, hp, hq, hz]
      · rcases hcond p hq hz with ⟨pg, hm, hid, hdoc⟩
        have hany : st.pages.any (fun x => x.id == p && x.documentId == h'.documentId) = true :=
          List.any_eq_true.mpr ⟨pg, hm, by simp [hid, hdoc, hd]⟩
        simp [hlOk, hp, hq, hany]
  unfold saveHighlightUpsert
  dsimp only
  split
  · split
    · exact hinv
    · split
      · simp only [HlInv, List.all_eq_true] at hinv ⊢
        intro h' hm'
        rcases List.mem_map.mp hm' with ⟨h0, hm0, rfl⟩
        by_cases hc : (h0.id == inp.id.getD 0) = true
        · dsimp only
          rw [if_pos hc]
          exact hnew _ rfl rfl
        · dsimp only
          rw [if_neg hc]
          exact hinv h0 hm0
      · exact hinv
  · simp only [HlInv, List.all_eq_true] at hinv ⊢
    intro h' hm'
    rw [List.mem_append] at hm'
    rcases hm' with hm' | hm'
    · exact hinv h' hm'
    · rw [List.mem_singleton] at hm'
      subst hm'
      exact hnew _ rfl rfl

/-- saveHighlight preserves the link invariant: a truthy pageId is guarded by
an existence check scoped to the same documentId, and a zero or absent pageId
is tolerated by the invariant. -/
theorem saveHighlight_preserves_hlInv (sess : Option String) (inp : SaveHighlightInput)
    (now : Int) (st : Store) (hinv : HlInv st = true) :
    HlInv ((saveHighlight sess inp now st).2) = true := by
  unfold saveHighlight requireUser
  cases sess
  case none => exact hinv
  case some uid =>
    dsimp only
    split
    · exact hinv
    · split
      case isTrue htr =>
        cases hpf : st.pages.find?
            (fun p => p.id == inp.pageId.getD 0 && p.documentId == inp.documentId) with
        | none => exact hinv
        | some pg =>
          refine saveHighlightUpsert_preserves inp now st hinv ?_
          intro p hp hpnz
          have hmem := List.mem_of_find?_eq_some hpf
          have hprop := List.find?_some hpf
          rw [Bool.and_eq_true] at hprop
          obtain ⟨hid, hdoc⟩ := hprop
          refine ⟨pg, hmem, ?_, by simpa using hdoc⟩
          have : pg.id = inp.pageId.getD 0 := by simpa using hid
          rw [this, hp]
          rfl
      case isFalse htr =>
        refine saveHighlightUpsert_preserves inp now st hinv ?_
        intro p hp hpnz
        exact absurd (by simp [truthyI, hp, hpnz] : truthyI inp.pageId = true) htr

/-- Claim C3 counterexample: starting from the empty store, createDocument,
savePage and saveHighlight reach a store satisfying the spec's invariant, and
one deletePage call (which succeeds) leaves the highlight's pageId dangling;
moreover saveHighlight itself breaks the invariant at write time when given
pageId 0, which truthiness exempts from the guard. -/
theorem highlight_link_invariant_counterexample :
    (HlInvStrict stReach3 = true ∧
     (deletePage (some "u") { id := 1, documentId := 1 } stReach3).1.toOption.isSome = true ∧
     HlInvStrict stReach4 = false ∧
     stReach4.highlights.any (fun h => h.pageId == some 1) = true ∧
     stReach4.pages = []) ∧
    (HlInvStrict stReach1 = true ∧
     stReachZero.highlights.any (fun h => h.pageId == some 0) = true ∧
     stReachZero.pages = [] ∧
     HlInvStrict stReachZero = false) := by
  decide

/-- Claim C3 (amended): the weakened link invariant — every highlight whose
pageId is set and non-zero references an existing page of its documentId — is
preserved by every exposed action other than deletePage, on stores whose page
primary keys are unique; deletePage (dangling references) and zero pageIds
(exempted by truthiness) are the two counterexample-forced exclusions. -/
theorem highlight_link_invariant_preserved (a : Act) (st : Store)
    (hnd : a.isDeletePg = false) (hpk : pagesPkUnique st) (hinv : HlInv st = true) :
    HlInv (runAct a st) = true := by
  cases a with
  | createDoc sess inp now =>
    have hk := createDocument_keeps sess inp now st
    show HlInv ((createDocument sess inp now st).2) = true
    rw [hlInv_congr _ st hk.1 hk.2]
    exact hinv
  | updateDoc sess inp now =>
    have hk := updateDocument_keeps sess inp now st
    show HlInv ((updateDocument sess inp now st).2) = true
    rw [hlInv_congr _ st hk.1 hk.2]
    exact hinv
  | listDocs sess =>
    show HlInv ((listDocuments sess st).2) = true
    rw [listDocuments_snd]
    exact hinv
  | getDocPages sess id =>
    show HlInv ((getDocumentWithPages sess id st).2) = true
    rw [getDocumentWithPages_snd]
    exact hinv
  | savePg sess inp now => exact savePage_preserves_hlInv sess inp now st hpk hinv
  | deletePg sess inp => simp [Act.isDeletePg] at hnd
  | saveHl sess inp now => exact saveHighlight_preserves_hlInv sess inp now st hinv
  | deleteHl sess inp => exact deleteHighlight_preserves_hlInv sess inp st hinv
  | createJob sess inp now =>
    have hk := createScanJob_keeps sess inp now st
    show HlInv ((createScanJob sess inp now st).2) = true
    rw [hlInv_congr _ st hk.1 hk.2]
    exact hinv
  | listJobs sess inp =>
    show HlInv ((listScanJobs sess inp st).2) = true
    rw [listScanJobs_snd]
    exact hinv

/-- Witness for claim C3's amended theorem: saving a highlight linked to page 1
keeps the invariant. -/
theorem highlight_link_invariant_preserved_witness :
    (Act.saveHl (some "u") { documentId := 1, pageId := some 1, content := "w" } 3).isDeletePg
      = false ∧
    pagesPkUnique storeUPage ∧ HlInv storeUPage = true ∧
    HlInv (runAct (Act.saveHl (some "u")
      { documentId := 1, pageId := some 1, content := "w" } 3) storeUPage) = true :=
  ⟨rfl, by decide, by decide,
    highlight_link_invariant_preserved
      (Act.saveHl (some "u") { documentId := 1, pageId := some 1, content := "w" } 3)
      storeUPage rfl (by decide) (by decide)⟩

end STScan
